import Mathlib

/-!
# Verification of the dev-toolkit Excel record mapper

Shallow embedding of the spreadsheet-to-record mapping pipeline of the
Excel-parsing service in `tools/api-runner.js` (the `/api/parseExcel`
handler), together with the handler's validation / error / cleanup control
flow.

The mapper (`rows.slice(0, 10).map(...).filter(...)`) consumes
`materialsConfig.fieldMapping` (a JS object: header label → canonical field
name) and `materialsConfig.convertValue` (raw cell value, field name →
coerced value). Both live in a configuration module outside the mapper;
here they are explicit parameters, exactly as the specification's
`mapRows(headers, rows, mappingTable, convert)` signature presents them.
-/

set_option autoImplicit false

/-- JavaScript runtime values as they occur in this pipeline: spreadsheet
cells, coerced field values, and the results of property lookups.
Numbers are modelled as rationals; the code only ever compares them
against the literal `0` with strict (in)equality, for which `ℚ` is
faithful (`-0 === 0` in JS, and the coercion contract never produces
`NaN` — unparseable input becomes `null`). Strict equality `===` / `!==`
between two `JSVal`s is Lean equality: values of different constructors
are never strictly equal, matching JS where `"0" !== 0` and
`undefined !== null`. -/
inductive JSVal where
  | vNull
  | vUndef
  | vNum (q : ℚ)
  | vStr (s : String)
deriving DecidableEq, Repr

/-- A JS object with `JSVal` values, as an insertion-ordered association
list without duplicate keys (the mapper builds `rowData` only through
assignments, which never duplicate a key). -/
abbrev Record := List (String × JSVal)

/-- Property read `r[k]`: the value stored under `k`, or `undefined` when
the key is absent. -/
def getField : Record → String → JSVal
  | [], _ => JSVal.vUndef
  | p :: r, k => if p.1 = k then p.2 else getField r k

/-- Property-existence test (`k in r`). -/
def hasField : Record → String → Bool
  | [], _ => false
  | p :: r, k => decide (p.1 = k) || hasField r k

/-- Property write `r[k] = v`: overwrite in place when the key exists,
otherwise append the new key at the end (JS object insertion order). -/
def setField : Record → String → JSVal → Record
  | [], k, v => [(k, v)]
  | p :: r, k, v => if p.1 = k then (k, v) :: r else p :: setField r k v

/-- Array read `row[i]`: `undefined` beyond the end of the array
(a data row shorter than the header row yields `undefined` cells). -/
def cellAt (row : List JSVal) (i : Nat) : JSVal :=
  row.getD i JSVal.vUndef

/-- The body of `headers.forEach((header, colIndex) => ...)` in the
`/api/parseExcel` handler, as an indexed recursion over the remaining
headers: `i` is the column index of the first header of `hs`, and `rd`
is the `rowData` object accumulated so far. For each header with an
entry in the mapping table, the converted cell value is assigned under
the canonical field name; unmapped headers are skipped. -/
def mapRowFrom (fieldMapping : String → Option String)
    (convertValue : JSVal → String → JSVal) (row : List JSVal) :
    Nat → List String → Record → Record
  | _, [], rd => rd
  | i, h :: hs, rd =>
      mapRowFrom fieldMapping convertValue row (i + 1) hs
        (match fieldMapping h with
         | some dbField => setField rd dbField (convertValue (cellAt row i) dbField)
         | none => rd)

/-- One data row mapped to a `rowData` record: start from the empty object
and process every header column in order, starting at index 0. -/
def mapRow (fieldMapping : String → Option String)
    (convertValue : JSVal → String → JSVal)
    (headers : List String) (row : List JSVal) : Record :=
  mapRowFrom fieldMapping convertValue row 0 headers []

/-- The retention filter of the handler:
`item.purchasePrice !== null && item.purchasePrice !== 0 &&
 item.taxRate !== null && item.taxRate !== 0`.
Strict inequality: an absent key reads as `undefined`, which is strictly
unequal to both `null` and the number `0`. -/
def passesFilter (item : Record) : Bool :=
  getField item "purchasePrice" != JSVal.vNull &&
  getField item "purchasePrice" != JSVal.vNum 0 &&
  getField item "taxRate" != JSVal.vNull &&
  getField item "taxRate" != JSVal.vNum 0

/-- The mapper: `rows.slice(0, 10).map((row, rowIndex) => { ... }).filter(...)`.
Only the first 10 data rows are mapped; mapped records failing the
retention filter are dropped, order is preserved. -/
def mapRows (fieldMapping : String → Option String)
    (convertValue : JSVal → String → JSVal)
    (headers : List String) (rows : List (List JSVal)) : List Record :=
  ((rows.take 10).map (mapRow fieldMapping convertValue headers)).filter passesFilter

/-! ## The `/api/parseExcel` handler: validation, status codes, cleanup

The handler is embedded as a function of the uploaded file (as formidable
presents it: `ctx.request.files.excelFile`, `None` when absent) and of the
outcome of `xlsx.parse(fs.readFileSync(file.filepath))`, which is external
input to the handler's control flow. By the time the handler runs,
formidable has already stored the upload in a temporary file
(`file.filepath`); `tempFileDeleted` records whether the handler reached an
`fs.unlinkSync` call for it (the file exists, so `fs.existsSync` is true).
-/

/-- The uploaded file as the handler sees it. -/
structure UploadedFile where
  originalFilename : String
  mimetype : String
  size : Nat
deriving DecidableEq, Repr

/-- `allowedTypes` of the handler. -/
def allowedTypes : List String :=
  ["application/vnd.ms-excel",
   "application/vnd.openxmlformats-officedocument.spreadsheetml.sheet",
   "application/octet-stream"]

/-- The regex test `/\.(xlsx?|csv)$/i.test(file.originalFilename)`:
the name ends in `.xls`, `.xlsx` or `.csv`, case-insensitively (the `/i`
flag folds ASCII letters, as `Char.toLower` does). -/
def hasExcelSuffix (name : String) : Bool :=
  List.isSuffixOf ".xlsx".data (name.data.map Char.toLower) ||
  List.isSuffixOf ".xls".data (name.data.map Char.toLower) ||
  List.isSuffixOf ".csv".data (name.data.map Char.toLower)

/-- `isValidExcel` of the handler: allowed MIME type or Excel/CSV filename. -/
def isValidExcel (f : UploadedFile) : Bool :=
  allowedTypes.contains f.mimetype || hasExcelSuffix f.originalFilename

/-- `maxSize = 10 * 1024 * 1024` (10MB). -/
def maxSize : Nat := 10 * 1024 * 1024

/-- Outcome of `xlsx.parse(fs.readFileSync(file.filepath))` followed by
`workbook[0]`, as seen by the rest of the handler. A nonempty sheet is
split as the code does: `headers = sheet.data[0]`, `rows = sheet.data.slice(1)`
(header cells are the strings used as `fieldMapping` lookup keys). -/
inductive ParseResult where
  /-- `fs.readFileSync` or `xlsx.parse` threw with this message. -/
  | throwsError (msg : String)
  /-- The workbook has no sheet: `workbook[0]` is `undefined`, so `!sheet`. -/
  | noSheet
  /-- The first sheet exists but `sheet.data.length === 0`. -/
  | emptySheet
  /-- The first sheet has `sheet.data = headers :: rows`. -/
  | sheet (headers : List String) (rows : List (List JSVal))
deriving DecidableEq

/-- A response body: either the structured error object
`{ success, message }` or the mapped records returned directly. -/
inductive RespBody where
  | errorObj (success : Bool) (message : String)
  | records (data : List Record)
deriving DecidableEq

/-- Observable outcome of one handler invocation: the HTTP status (Koa
sets 200 when a body is assigned and no status was set explicitly), the
response body, and whether the handler deleted the temporary upload file. -/
structure HandlerResult where
  status : Nat
  body : RespBody
  tempFileDeleted : Bool
deriving DecidableEq

/-- The `/api/parseExcel` handler's control flow, branch by branch in
source order: missing file → 400; invalid type → 400; oversized → 400;
then `tempFilePath = file.filepath` and parsing — a thrown error is caught
(500, cleanup runs since `tempFilePath` is set); a missing or empty sheet
returns the error body without setting a status (Koa → 200) and without
reaching any cleanup; otherwise the mapper output is the body (200) after
the cleanup ran. -/
def parseExcelHandler (fieldMapping : String → Option String)
    (convertValue : JSVal → String → JSVal)
    (file : Option UploadedFile) (parsed : ParseResult) : HandlerResult :=
  match file with
  | none => ⟨400, RespBody.errorObj false "请上传Excel文件", false⟩
  | some f =>
    if isValidExcel f then
      if f.size > maxSize then
        ⟨400, RespBody.errorObj false "文件过大，最大支持 10MB", false⟩
      else
        match parsed with
        | ParseResult.throwsError msg => ⟨500, RespBody.errorObj false msg, true⟩
        | ParseResult.noSheet => ⟨200, RespBody.errorObj false "Excel文件为空", false⟩
        | ParseResult.emptySheet => ⟨200, RespBody.errorObj false "Excel文件为空", false⟩
        | ParseResult.sheet headers rows =>
            ⟨200, RespBody.records (mapRows fieldMapping convertValue headers rows), true⟩
    else
      ⟨400, RespBody.errorObj false "请上传有效的Excel文件（.xlsx, .xls 或 .csv）", false⟩

/-- The field-mapping table of `materialsConfig` as listed by the service
banner (产品编码, 产品名称, 采购价, 税点, 不含税采购价); used only to
instantiate universally quantified theorems at concrete inputs — every
theorem below quantifies over arbitrary mapping tables. -/
def sampleMapping : String → Option String := fun h =>
  if h = "产品编码" then some "productCode"
  else if h = "产品名称" then some "productName"
  else if h = "采购价" then some "purchasePrice"
  else if h = "税点" then some "taxRate"
  else if h = "不含税采购价" then some "purchasePriceExclTax"
  else none

/-- A concrete conversion function (identity on the raw cell value) used
to instantiate universally quantified theorems at concrete inputs. -/
def sampleConvert : JSVal → String → JSVal := fun v _ => v

/-- The column index whose value ends up stored under field `f` when the
headers `hs` (whose first column index is `i`) are processed in order:
the **last** column whose header maps to `f`, since each later assignment
overwrites the earlier one. -/
def lastColFor (fm : String → Option String) :
    List String → Nat → String → Option Nat
  | [], _, _ => none
  | h :: hs, i, f =>
      match lastColFor fm hs (i + 1) f with
      | some j => some j
      | none => if fm h = some f then some i else none

/-! ### Basic lemmas about records -/

theorem getField_setField_self (r : Record) (k : String) (v : JSVal) :
    getField (setField r k v) k = v := by
  induction r with
  | nil => simp [setField, getField]
  | cons p r ih =>
      by_cases hpk : p.1 = k
      · simp [setField, hpk, getField]
      · simp [setField, hpk, getField, ih]

theorem getField_setField_ne (r : Record) (k f : String) (v : JSVal)
    (hfk : f ≠ k) : getField (setField r k v) f = getField r f := by
  have hkf : ¬ (k = f) := fun h => hfk h.symm
  induction r with
  | nil => simp [setField, getField, hkf]
  | cons p r ih =>
      by_cases hpk : p.1 = k
      · simp [setField, hpk, getField, hkf]
      · simp [setField, hpk, getField, ih]

theorem hasField_setField (r : Record) (k f : String) (v : JSVal) :
    hasField (setField r k v) f = (decide (k = f) || hasField r f) := by
  induction r with
  | nil => simp [setField, hasField]
  | cons p r ih =>
      by_cases hpk : p.1 = k
      · subst hpk
        simp [setField, hasField, ih]
      · simp [setField, hpk, hasField, ih]
        by_cases hkf : k = f <;> by_cases hpf : p.1 = f <;> simp [hkf, hpf]

/-! ### The record produced by one row -/

theorem getField_mapRowFrom (fm : String → Option String)
    (cv : JSVal → String → JSVal) (row : List JSVal) :
    ∀ (hs : List String) (i : Nat) (rd : Record) (f : String),
      getField (mapRowFrom fm cv row i hs rd) f =
        match lastColFor fm hs i f with
        | some j => cv (cellAt row j) f
        | none => getField rd f := by
  intro hs
  induction hs with
  | nil => intro i rd f; rfl
  | cons h hs ih =>
      intro i rd f
      show getField (mapRowFrom fm cv row (i + 1) hs _) f = _
      rw [ih]
      cases htl : lastColFor fm hs (i + 1) f with
      | some j => simp [lastColFor, htl]
      | none =>
          cases hfm : fm h with
          | none =>
              have : ¬ fm h = some f := by simp [hfm]
              simp [lastColFor, htl, hfm]
          | some g =>
              by_cases hgf : g = f
              · subst hgf
                simp [lastColFor, htl, hfm, getField_setField_self]
              · have hne : ¬ fm h = some f := by simp [hfm, hgf]
                simp [lastColFor, htl, hfm, hne, hgf,
                  getField_setField_ne _ _ _ _ (Ne.symm hgf)]

theorem hasField_mapRowFrom (fm : String → Option String)
    (cv : JSVal → String → JSVal) (row : List JSVal) :
    ∀ (hs : List String) (i : Nat) (rd : Record) (f : String),
      hasField (mapRowFrom fm cv row i hs rd) f =
        (hs.any (fun h => decide (fm h = some f)) || hasField rd f) := by
  intro hs
  induction hs with
  | nil => intro i rd f; simp [mapRowFrom]
  | cons h hs ih =>
      intro i rd f
      show hasField (mapRowFrom fm cv row (i + 1) hs _) f = _
      rw [ih]
      cases hfm : fm h with
      | none =>
          have : ¬ fm h = some f := by simp [hfm]
          simp [hfm, this]
      | some g =>
          by_cases hgf : g = f
          · subst hgf
            simp [hfm, hasField_setField]
          · have hne : ¬ fm h = some f := by simp [hfm, hgf]
            simp [hfm, hne, hasField_setField, hgf]

theorem lastColFor_eq_none (fm : String → Option String) (f : String) :
    ∀ (hs : List String) (i : Nat),
      (∀ m, m < hs.length → fm (hs.getD m "") ≠ some f) →
      lastColFor fm hs i f = none := by
  intro hs
  induction hs with
  | nil => intro i _; rfl
  | cons h hs ih =>
      intro i hnone
      have htl : lastColFor fm hs (i + 1) f = none := by
        refine ih (i + 1) (fun m hm => ?_)
        have := hnone (m + 1) (by simpa using Nat.succ_lt_succ hm)
        simpa using this
      have hh : ¬ fm h = some f := by simpa using hnone 0 (Nat.succ_pos _)
      simp [lastColFor, htl, hh]

theorem lastColFor_some_spec (fm : String → Option String) (f : String) :
    ∀ (hs : List String) (i j : Nat), lastColFor fm hs i f = some j →
      i ≤ j ∧ j - i < hs.length ∧ fm (hs.getD (j - i) "") = some f := by
  intro hs
  induction hs with
  | nil => intro i j hj; exact absurd hj (by simp [lastColFor])
  | cons h hs ih =>
      intro i j hj
      cases htl : lastColFor fm hs (i + 1) f with
      | some j' =>
          rw [lastColFor, htl] at hj
          cases hj
          obtain ⟨h1, h2, h3⟩ := ih (i + 1) j htl
          have hji : j - i = (j - (i + 1)) + 1 := by omega
          refine ⟨by omega, by simpa [hji] using Nat.succ_lt_succ h2, ?_⟩
          rw [hji]
          simpa using h3
      | none =>
          rw [lastColFor, htl] at hj
          by_cases hh : fm h = some f
          · simp only [hh, if_pos] at hj
            cases hj
            simp [hh]
          · simp [hh] at hj

theorem lastColFor_eq_some_of_last (fm : String → Option String) (f : String) :
    ∀ (hs : List String) (i j : Nat), j < hs.length →
      fm (hs.getD j "") = some f →
      (∀ k, k < hs.length → j < k → fm (hs.getD k "") ≠ some f) →
      lastColFor fm hs i f = some (i + j) := by
  intro hs
  induction hs with
  | nil => intro i j hj; exact absurd hj (by simp)
  | cons h hs ih =>
      intro i j hj hget hlast
      cases j with
      | zero =>
          have htl : lastColFor fm hs (i + 1) f = none := by
            refine lastColFor_eq_none fm f hs (i + 1) (fun m hm => ?_)
            have := hlast (m + 1) (by simpa using Nat.succ_lt_succ hm) (Nat.succ_pos _)
            simpa using this
          have hh : fm h = some f := by simpa using hget
          simp [lastColFor, htl, hh]
      | succ j' =>
          have hj' : j' < hs.length := by simpa using Nat.lt_of_succ_lt_succ hj
          have hget' : fm (hs.getD j' "") = some f := by simpa using hget
          have hlast' : ∀ k, k < hs.length → j' < k → fm (hs.getD k "") ≠ some f := by
            intro k hk hjk
            have := hlast (k + 1) (by simpa using Nat.succ_lt_succ hk)
              (Nat.succ_lt_succ hjk)
            simpa using this
          have htl := ih (i + 1) j' hj' hget' hlast'
          have harith : i + 1 + j' = i + (j' + 1) := by omega
          simp [lastColFor, htl, harith]

/-- Sanity check against the specification's worked scenario: headers
`产品编码, 产品名称, 采购价, 税点` with a fully valid first row map to the
four expected canonical fields (with the conversion function passing raw
values through). -/
theorem mapRows_spec_scenario :
    mapRows sampleMapping sampleConvert ["产品编码", "产品名称", "采购价", "税点"]
      [[JSVal.vStr "A1", JSVal.vStr "Widget", JSVal.vNum 10, JSVal.vNum 13]] =
      [[("productCode", JSVal.vStr "A1"), ("productName", JSVal.vStr "Widget"),
        ("purchasePrice", JSVal.vNum 10), ("taxRate", JSVal.vNum 13)]] := by
  decide

/-- Sanity check: a row whose tax rate coerces to the number 0 is dropped
by the retention filter. -/
theorem mapRows_zero_tax_dropped :
    mapRows sampleMapping sampleConvert ["采购价", "税点"]
      [[JSVal.vNum 5, JSVal.vNum 0]] = [] := by
  decide

/-! ### The retention filter, unfolded -/

theorem passesFilter_eq_true_iff (rec : Record) :
    passesFilter rec = true ↔
      (getField rec "purchasePrice" ≠ JSVal.vNull ∧
       getField rec "purchasePrice" ≠ JSVal.vNum 0 ∧
       getField rec "taxRate" ≠ JSVal.vNull ∧
       getField rec "taxRate" ≠ JSVal.vNum 0) := by
  simp [passesFilter, and_assoc]

/-! ## Claims -/

/-- C1, counterexample to the claim as stated: the claim says a record
whose `purchasePrice` field is null **or undefined** is never retained,
but the filter uses strict `!==`, and `undefined !== null` is true in JS.
With a header row that has no purchase-price column at all, the mapped
record `{taxRate: 13}` has an undefined `purchasePrice`, yet it is in the
output. -/
theorem mapRows_undefined_price_retained :
    [("taxRate", JSVal.vNum 13)] ∈
      mapRows sampleMapping sampleConvert ["税点"] [[JSVal.vNum 13]] ∧
    getField [("taxRate", JSVal.vNum 13)] "purchasePrice" = JSVal.vUndef := by
  decide

/-- C1 (amended): a mapped record (one of the first 10 rows mapped by
`mapRow`) is retained in the output **iff** its `purchasePrice` field is
neither null nor the number 0 and its `taxRate` field is neither null nor
the number 0 — where an absent key reads as `undefined`, which passes both
strict checks. In particular a row whose mapped purchase price coerces to
the number 0, or whose mapped tax rate is null, is never present in the
output. -/
theorem mapRows_retention_iff (fm : String → Option String)
    (cv : JSVal → String → JSVal) (hs : List String)
    (rows : List (List JSVal)) (rec : Record) :
    rec ∈ mapRows fm cv hs rows ↔
      (rec ∈ (rows.take 10).map (mapRow fm cv hs) ∧
       getField rec "purchasePrice" ≠ JSVal.vNull ∧
       getField rec "purchasePrice" ≠ JSVal.vNum 0 ∧
       getField rec "taxRate" ≠ JSVal.vNull ∧
       getField rec "taxRate" ≠ JSVal.vNum 0) := by
  rw [mapRows, List.mem_filter, passesFilter_eq_true_iff]

/-- C2, counterexample to the claim as stated: with an empty (but present)
header row and one data row, the output is not the empty sequence — the
row maps to the empty record `{}`, whose undefined `purchasePrice` and
`taxRate` pass the strict `!==` filter. -/
theorem mapRows_empty_headers_not_empty :
    mapRows sampleMapping sampleConvert [] [[JSVal.vNum 1]] = [[]] ∧
    mapRows sampleMapping sampleConvert [] [[JSVal.vNum 1]] ≠ [] := by
  decide

/-- C2 (amended): an absent sheet (`sheet.data.length === 0`) is rejected
by the handler before any mapping (see the handler theorems); an empty but
present header row does **not** yield an empty output — every one of the
first 10 data rows is processed into the empty record, and all these empty
records pass the retention filter, so the output is one empty record per
data row among the first 10 (length `min 10 (number of data rows)`). -/
theorem mapRows_empty_headers_eq (fm : String → Option String)
    (cv : JSVal → String → JSVal) (rows : List (List JSVal)) :
    mapRows fm cv [] rows = (rows.take 10).map (fun _ => ([] : Record)) ∧
    (mapRows fm cv [] rows).length = min 10 rows.length := by
  have hmap : mapRow fm cv [] = fun _ => ([] : Record) := funext (fun _ => rfl)
  have h1 : mapRows fm cv [] rows = (rows.take 10).map (fun _ => ([] : Record)) := by
    rw [mapRows, hmap]
    refine List.filter_eq_self.mpr (fun a ha => ?_)
    obtain ⟨x, -, rfl⟩ := List.mem_map.mp ha
    decide
  exact ⟨h1, by rw [h1]; simp⟩

/-- C3: the output never has more than `min 10 (number of data rows)`
records — only the first 10 data rows are considered — and in the
scenario of 12 supplied data rows all of which pass the retention filter,
the output length is exactly 10. -/
theorem mapRows_length_le (fm : String → Option String)
    (cv : JSVal → String → JSVal) (hs : List String)
    (rows : List (List JSVal)) :
    (mapRows fm cv hs rows).length ≤ min 10 rows.length ∧
    (rows.length = 12 →
      (∀ rec ∈ (rows.take 10).map (mapRow fm cv hs), passesFilter rec = true) →
      (mapRows fm cv hs rows).length = 10) := by
  constructor
  · calc (mapRows fm cv hs rows).length
        ≤ ((rows.take 10).map (mapRow fm cv hs)).length :=
          List.length_filter_le _ _
      _ = min 10 rows.length := by simp
  · intro h12 hall
    rw [mapRows, List.filter_eq_self.mpr hall]
    simp [h12]

/-- C3, witness: 12 identical valid data rows; the bound and the
exact-10 conclusion hold at this concrete input. -/
theorem mapRows_length_le_witness :
    (mapRows sampleMapping sampleConvert ["采购价", "税点"]
      (List.replicate 12 [JSVal.vNum 1, JSVal.vNum 13])).length ≤
      min 10 (List.replicate 12 [JSVal.vNum 1, JSVal.vNum 13]).length ∧
    (mapRows sampleMapping sampleConvert ["采购价", "税点"]
      (List.replicate 12 [JSVal.vNum 1, JSVal.vNum 13])).length = 10 :=
  ⟨(mapRows_length_le sampleMapping sampleConvert ["采购价", "税点"]
      (List.replicate 12 [JSVal.vNum 1, JSVal.vNum 13])).1,
   (mapRows_length_le sampleMapping sampleConvert ["采购价", "税点"]
      (List.replicate 12 [JSVal.vNum 1, JSVal.vNum 13])).2 (by decide) (by decide)⟩

/-- C4, counterexample to the claim as stated: with the duplicate header
`采购价` in columns 0 and 1, the record's `purchasePrice` holds the value
converted from column 1 — the **last** occurrence — because each later
`rowData[dbField] = ...` assignment overwrites the earlier one; the claim
says it comes from the first occurrence (column 0, value 1). -/
theorem mapRow_first_occurrence_loses :
    getField (mapRow sampleMapping sampleConvert ["采购价", "采购价"]
      [JSVal.vNum 1, JSVal.vNum 2]) "purchasePrice" = JSVal.vNum 2 ∧
    sampleConvert (cellAt [JSVal.vNum 1, JSVal.vNum 2] 0) "purchasePrice" =
      JSVal.vNum 1 ∧
    JSVal.vNum 2 ≠ JSVal.vNum 1 := by
  decide

/-- C4 (amended): when the header row contains duplicate header labels
mapped to the same canonical field, the **last** occurrence wins: the
value stored under the canonical field name comes from the column of the
last occurrence of a header label mapping to that field. -/
theorem mapRow_last_occurrence_wins (fm : String → Option String)
    (cv : JSVal → String → JSVal) (hs : List String) (row : List JSVal)
    (j : Nat) (f : String) (hj : j < hs.length)
    (hmap : fm (hs.getD j "") = some f)
    (hlast : ∀ k, k < hs.length → j < k → fm (hs.getD k "") ≠ some f) :
    getField (mapRow fm cv hs row) f = cv (cellAt row j) f := by
  have hsome : lastColFor fm hs 0 f = some j := by
    simpa using lastColFor_eq_some_of_last fm f hs 0 j hj hmap hlast
  rw [mapRow, getField_mapRowFrom, hsome]

/-- C4, witness: duplicate header `采购价` at columns 0 and 1; column 1 is
the last occurrence and its (converted) cell value is what the record
holds. -/
theorem mapRow_last_occurrence_wins_witness :
    (1 < (["采购价", "采购价"] : List String).length) ∧
    sampleMapping ((["采购价", "采购价"] : List String).getD 1 "") =
      some "purchasePrice" ∧
    getField (mapRow sampleMapping sampleConvert ["采购价", "采购价"]
      [JSVal.vNum 1, JSVal.vNum 2]) "purchasePrice" =
      sampleConvert (cellAt [JSVal.vNum 1, JSVal.vNum 2] 1) "purchasePrice" :=
  ⟨by decide, by decide,
   mapRow_last_occurrence_wins sampleMapping sampleConvert
     ["采购价", "采购价"] [JSVal.vNum 1, JSVal.vNum 2] 1 "purchasePrice"
     (by decide) (by decide) (by decide)⟩

/-- C5: a header label with no entry in the mapping table never produces a
key in any output record — every key of every output record is the image
under the mapping table of some header label occurring in the header row.
(The lookup guard `if (dbField)` simply skips unmapped headers, so no
error can arise; the embedding is a total function.) -/
theorem mapRows_keys_are_mapped_headers (fm : String → Option String)
    (cv : JSVal → String → JSVal) (hs : List String)
    (rows : List (List JSVal)) (rec : Record) (k : String)
    (hrec : rec ∈ mapRows fm cv hs rows) (hk : hasField rec k = true) :
    ∃ h ∈ hs, fm h = some k := by
  obtain ⟨hmem, -⟩ := List.mem_filter.mp hrec
  obtain ⟨row, -, rfl⟩ := List.mem_map.mp hmem
  rw [mapRow, hasField_mapRowFrom] at hk
  simp only [hasField, Bool.or_false] at hk
  obtain ⟨h, hmem, hfm⟩ := List.any_eq_true.mp hk
  exact ⟨h, hmem, of_decide_eq_true hfm⟩

/-- C5, witness: the single output record of a one-column sheet has the
key `taxRate`, and indeed some header of the row maps to `taxRate`. -/
theorem mapRows_keys_are_mapped_headers_witness :
    ([("taxRate", JSVal.vNum 1)] ∈
      mapRows sampleMapping sampleConvert ["税点"] [[JSVal.vNum 1]]) ∧
    hasField [("taxRate", JSVal.vNum 1)] "taxRate" = true ∧
    ∃ h ∈ (["税点"] : List String), sampleMapping h = some "taxRate" :=
  ⟨by decide, by decide,
   mapRows_keys_are_mapped_headers sampleMapping sampleConvert ["税点"]
     [[JSVal.vNum 1]] [("taxRate", JSVal.vNum 1)] "taxRate"
     (by decide) (by decide)⟩

/-- C6: the mapper is a pure, deterministic function of its four inputs —
two invocations with identical mapping table, conversion function, headers
and rows produce identical output sequences. (In the source the mapper's
only writes are to the fresh `rowData` objects and the fresh arrays
produced by `slice`/`map`/`filter`; no input is mutated, which is what
makes this pure functional embedding faithful.) -/
theorem mapRows_deterministic (fm₁ fm₂ : String → Option String)
    (cv₁ cv₂ : JSVal → String → JSVal) (hs₁ hs₂ : List String)
    (rows₁ rows₂ : List (List JSVal)) (hfm : fm₁ = fm₂) (hcv : cv₁ = cv₂)
    (hh : hs₁ = hs₂) (hr : rows₁ = rows₂) :
    mapRows fm₁ cv₁ hs₁ rows₁ = mapRows fm₂ cv₂ hs₂ rows₂ := by
  subst hfm; subst hcv; subst hh; subst hr; rfl

/-- C6, witness: two invocations on the same concrete input agree. -/
theorem mapRows_deterministic_witness :
    mapRows sampleMapping sampleConvert ["税点"] [[JSVal.vNum 1]] =
      mapRows sampleMapping sampleConvert ["税点"] [[JSVal.vNum 1]] :=
  mapRows_deterministic sampleMapping sampleMapping sampleConvert
    sampleConvert ["税点"] ["税点"] [[JSVal.vNum 1]] [[JSVal.vNum 1]]
    rfl rfl rfl rfl

theorem lastColFor_none_forall (fm : String → Option String) (f : String) :
    ∀ (hs : List String) (i : Nat), lastColFor fm hs i f = none →
      ∀ m, m < hs.length → fm (hs.getD m "") ≠ some f := by
  intro hs
  induction hs with
  | nil => intro i _ m hm; exact absurd hm (by simp)
  | cons h hs ih =>
      intro i hnone m hm
      have h1 : lastColFor fm hs (i + 1) f = none := by
        cases htl : lastColFor fm hs (i + 1) f with
        | some j => rw [lastColFor, htl] at hnone; exact absurd hnone (by simp)
        | none => rfl
      have h2 : ¬ fm h = some f := by
        intro hf
        rw [lastColFor, h1] at hnone
        simp [hf] at hnone
      cases m with
      | zero => simpa using h2
      | succ m' =>
          intro hf
          exact ih (i + 1) h1 m' (by simpa using Nat.lt_of_succ_lt_succ hm)
            (by simpa using hf)

/-- C9: for every data row, the mapped record has a key for every header
label that occurs in the header row and has an entry in the mapping
table — even when the corresponding cell is missing (`cellAt` yields
`undefined` past the end of the row) — and the value stored under that
key is the conversion function applied to the raw cell of one such column
(the last one, when the label is duplicated). -/
theorem mapRow_mapped_header_key_set (fm : String → Option String)
    (cv : JSVal → String → JSVal) (hs : List String) (row : List JSVal)
    (i : Nat) (f : String) (hi : i < hs.length)
    (hmap : fm (hs.getD i "") = some f) :
    hasField (mapRow fm cv hs row) f = true ∧
    ∃ j, j < hs.length ∧ fm (hs.getD j "") = some f ∧
      getField (mapRow fm cv hs row) f = cv (cellAt row j) f := by
  constructor
  · rw [mapRow, hasField_mapRowFrom]
    have hmem : hs.getD i "" ∈ hs := by
      rw [List.getD_eq_getElem _ _ hi]
      exact List.getElem_mem hi
    have hany : hs.any (fun h => decide (fm h = some f)) = true :=
      List.any_eq_true.mpr ⟨_, hmem, decide_eq_true hmap⟩
    simp [hany]
  · cases hlc : lastColFor fm hs 0 f with
    | none => exact absurd hmap (lastColFor_none_forall fm f hs 0 hlc i hi)
    | some j =>
        obtain ⟨-, hlen, hfm⟩ := lastColFor_some_spec fm f hs 0 j hlc
        refine ⟨j, by simpa using hlen, by simpa using hfm, ?_⟩
        rw [mapRow, getField_mapRowFrom, hlc]

/-- C9, witness: a sheet whose single data row is entirely empty (shorter
than the header row) still yields a record with the `purchasePrice` key,
holding the conversion of the `undefined` cell. -/
theorem mapRow_mapped_header_key_set_witness :
    (0 < (["采购价"] : List String).length) ∧
    sampleMapping ((["采购价"] : List String).getD 0 "") =
      some "purchasePrice" ∧
    hasField (mapRow sampleMapping sampleConvert ["采购价"] [])
      "purchasePrice" = true ∧
    ∃ j, j < (["采购价"] : List String).length ∧
      sampleMapping ((["采购价"] : List String).getD j "") =
        some "purchasePrice" ∧
      getField (mapRow sampleMapping sampleConvert ["采购价"] [])
        "purchasePrice" = sampleConvert (cellAt [] j) "purchasePrice" :=
  ⟨by decide, by decide,
   (mapRow_mapped_header_key_set sampleMapping sampleConvert ["采购价"] []
     0 "purchasePrice" (by decide) (by decide)).1,
   (mapRow_mapped_header_key_set sampleMapping sampleConvert ["采购价"] []
     0 "purchasePrice" (by decide) (by decide)).2⟩

theorem mapRowFrom_congr (fm : String → Option String)
    (cv : JSVal → String → JSVal) (row₁ row₂ : List JSVal) :
    ∀ (hs : List String) (i : Nat) (rd : Record),
      (∀ k, i ≤ k → k < i + hs.length → cellAt row₁ k = cellAt row₂ k) →
      mapRowFrom fm cv row₁ i hs rd = mapRowFrom fm cv row₂ i hs rd := by
  intro hs
  induction hs with
  | nil => intro i rd _; rfl
  | cons h hs ih =>
      intro i rd hcells
      have hcell : cellAt row₁ i = cellAt row₂ i :=
        hcells i le_rfl (by rw [List.length_cons]; omega)
      simp only [mapRowFrom]
      rw [hcell]
      exact ih (i + 1) _ (fun k hk1 hk2 =>
        hcells k (by omega) (by rw [List.length_cons]; omega))

theorem mapRow_congr (fm : String → Option String)
    (cv : JSVal → String → JSVal) (hs : List String) (row₁ row₂ : List JSVal)
    (hcells : ∀ i, i < hs.length → cellAt row₁ i = cellAt row₂ i) :
    mapRow fm cv hs row₁ = mapRow fm cv hs row₂ := by
  rw [mapRow, mapRow]
  exact mapRowFrom_congr fm cv row₁ row₂ hs 0 []
    (fun k _ hk2 => hcells k (by omega))

/-- C10: the output depends only on the first `headers.length` cells of
each data row. If two row sequences correspond row-by-row with equal
cells at every column index below the header length, the mapper produces
identical output — trailing cells beyond the header length never matter. -/
theorem mapRows_ignores_trailing_cells (fm : String → Option String)
    (cv : JSVal → String → JSVal) (hs : List String)
    (rows₁ rows₂ : List (List JSVal))
    (hrows : List.Forall₂
      (fun r₁ r₂ => ∀ i, i < hs.length → cellAt r₁ i = cellAt r₂ i)
      rows₁ rows₂) :
    mapRows fm cv hs rows₁ = mapRows fm cv hs rows₂ := by
  rw [mapRows, mapRows]
  have hmaps : ∀ n, (rows₁.take n).map (mapRow fm cv hs) =
      (rows₂.take n).map (mapRow fm cv hs) := by
    induction hrows with
    | nil => intro n; rfl
    | cons hab htl ih =>
        intro n
        cases n with
        | zero => rfl
        | succ n =>
            simp only [List.take_succ_cons, List.map_cons]
            rw [mapRow_congr fm cv hs _ _ hab, ih n]
  rw [hmaps 10]

/-- C10, witness: two one-row inputs equal on column 0 (the only header
column) but different in the trailing cell at column 1 map to the same
output. -/
theorem mapRows_ignores_trailing_cells_witness :
    List.Forall₂
      (fun r₁ r₂ => ∀ i, i < (["税点"] : List String).length →
        cellAt r₁ i = cellAt r₂ i)
      [[JSVal.vNum 1, JSVal.vNum 5]] [[JSVal.vNum 1, JSVal.vNum 7]] ∧
    mapRows sampleMapping sampleConvert ["税点"]
      [[JSVal.vNum 1, JSVal.vNum 5]] =
      mapRows sampleMapping sampleConvert ["税点"]
      [[JSVal.vNum 1, JSVal.vNum 7]] := by
  have hcell : ∀ i, i < (["税点"] : List String).length →
      cellAt [JSVal.vNum 1, JSVal.vNum 5] i =
      cellAt [JSVal.vNum 1, JSVal.vNum 7] i := by decide
  have hf : List.Forall₂
      (fun r₁ r₂ => ∀ i, i < (["税点"] : List String).length →
        cellAt r₁ i = cellAt r₂ i)
      [[JSVal.vNum 1, JSVal.vNum 5]] [[JSVal.vNum 1, JSVal.vNum 7]] :=
    List.Forall₂.cons hcell List.Forall₂.nil
  exact ⟨hf, mapRows_ignores_trailing_cells sampleMapping sampleConvert
    ["税点"] _ _ hf⟩

/-- C7, counterexample to the claim as stated: the claim says the
empty-sheet failure is answered with HTTP status 400, but the handler's
empty-sheet branch assigns the error body without ever setting
`ctx.status`, so Koa responds 200. -/
theorem parseExcel_empty_sheet_status_200 :
    (parseExcelHandler sampleMapping sampleConvert
      (some ⟨"a.xlsx", "application/vnd.ms-excel", 100⟩)
      ParseResult.emptySheet).status = 200 ∧
    (parseExcelHandler sampleMapping sampleConvert
      (some ⟨"a.xlsx", "application/vnd.ms-excel", 100⟩)
      ParseResult.emptySheet).body =
      RespBody.errorObj false "Excel文件为空" := by
  decide

/-- C7 (amended): every failure of the parse endpoint carries the
structured error body `{success: false, message}`; the status code is
400 for a missing file, an invalid file type and an oversized file, and
500 for internal parse errors — but the empty/missing-sheet failure is
sent with status 200 (the branch never sets a status, so Koa's default
for an assigned body applies). -/
theorem parseExcel_error_responses :
    (∀ (fm : String → Option String) (cv : JSVal → String → JSVal)
       (parsed : ParseResult),
      parseExcelHandler fm cv none parsed =
        ⟨400, RespBody.errorObj false "请上传Excel文件", false⟩) ∧
    (∀ (fm : String → Option String) (cv : JSVal → String → JSVal)
       (f : UploadedFile) (parsed : ParseResult), isValidExcel f = false →
      parseExcelHandler fm cv (some f) parsed =
        ⟨400, RespBody.errorObj false
          "请上传有效的Excel文件（.xlsx, .xls 或 .csv）", false⟩) ∧
    (∀ (fm : String → Option String) (cv : JSVal → String → JSVal)
       (f : UploadedFile) (parsed : ParseResult), isValidExcel f = true →
      f.size > maxSize →
      parseExcelHandler fm cv (some f) parsed =
        ⟨400, RespBody.errorObj false "文件过大，最大支持 10MB", false⟩) ∧
    (∀ (fm : String → Option String) (cv : JSVal → String → JSVal)
       (f : UploadedFile) (msg : String), isValidExcel f = true →
      f.size ≤ maxSize →
      parseExcelHandler fm cv (some f) (ParseResult.throwsError msg) =
        ⟨500, RespBody.errorObj false msg, true⟩) ∧
    (∀ (fm : String → Option String) (cv : JSVal → String → JSVal)
       (f : UploadedFile), isValidExcel f = true → f.size ≤ maxSize →
      parseExcelHandler fm cv (some f) ParseResult.noSheet =
        ⟨200, RespBody.errorObj false "Excel文件为空", false⟩ ∧
      parseExcelHandler fm cv (some f) ParseResult.emptySheet =
        ⟨200, RespBody.errorObj false "Excel文件为空", false⟩) := by
  refine ⟨fun fm cv parsed => rfl, ?_, ?_, ?_, ?_⟩
  · intro fm cv f parsed hv
    simp [parseExcelHandler, hv]
  · intro fm cv f parsed hv hsz
    simp [parseExcelHandler, hv, hsz]
  · intro fm cv f msg hv hsz
    have hns : ¬ f.size > maxSize := not_lt.mpr hsz
    simp [parseExcelHandler, hv, hns]
  · intro fm cv f hv hsz
    have hns : ¬ f.size > maxSize := not_lt.mpr hsz
    exact ⟨by simp [parseExcelHandler, hv, hns], by simp [parseExcelHandler, hv, hns]⟩

/-- C7, witness: each failure branch exercised at a concrete request
(missing file; `a.txt` of type `text/plain`; an 10485761-byte `a.xlsx`;
a parse exception `boom`; a missing and an empty sheet). -/
theorem parseExcel_error_responses_witness :
    isValidExcel ⟨"a.txt", "text/plain", 100⟩ = false ∧
    isValidExcel ⟨"a.xlsx", "application/vnd.ms-excel", 10485761⟩ = true ∧
    (⟨"a.xlsx", "application/vnd.ms-excel", 10485761⟩ : UploadedFile).size >
      maxSize ∧
    isValidExcel ⟨"a.xlsx", "application/vnd.ms-excel", 100⟩ = true ∧
    (⟨"a.xlsx", "application/vnd.ms-excel", 100⟩ : UploadedFile).size ≤
      maxSize ∧
    parseExcelHandler sampleMapping sampleConvert none
      ParseResult.emptySheet =
      ⟨400, RespBody.errorObj false "请上传Excel文件", false⟩ ∧
    parseExcelHandler sampleMapping sampleConvert
      (some ⟨"a.txt", "text/plain", 100⟩) ParseResult.emptySheet =
      ⟨400, RespBody.errorObj false
        "请上传有效的Excel文件（.xlsx, .xls 或 .csv）", false⟩ ∧
    parseExcelHandler sampleMapping sampleConvert
      (some ⟨"a.xlsx", "application/vnd.ms-excel", 10485761⟩)
      ParseResult.emptySheet =
      ⟨400, RespBody.errorObj false "文件过大，最大支持 10MB", false⟩ ∧
    parseExcelHandler sampleMapping sampleConvert
      (some ⟨"a.xlsx", "application/vnd.ms-excel", 100⟩)
      (ParseResult.throwsError "boom") =
      ⟨500, RespBody.errorObj false "boom", true⟩ ∧
    parseExcelHandler sampleMapping sampleConvert
      (some ⟨"a.xlsx", "application/vnd.ms-excel", 100⟩)
      ParseResult.noSheet =
      ⟨200, RespBody.errorObj false "Excel文件为空", false⟩ ∧
    parseExcelHandler sampleMapping sampleConvert
      (some ⟨"a.xlsx", "application/vnd.ms-excel", 100⟩)
      ParseResult.emptySheet =
      ⟨200, RespBody.errorObj false "Excel文件为空", false⟩ :=
  ⟨by decide, by decide, by decide, by decide, by decide,
   parseExcel_error_responses.1 sampleMapping sampleConvert
     ParseResult.emptySheet,
   parseExcel_error_responses.2.1 sampleMapping sampleConvert
     ⟨"a.txt", "text/plain", 100⟩ ParseResult.emptySheet (by decide),
   parseExcel_error_responses.2.2.1 sampleMapping sampleConvert
     ⟨"a.xlsx", "application/vnd.ms-excel", 10485761⟩ ParseResult.emptySheet
     (by decide) (by decide),
   parseExcel_error_responses.2.2.2.1 sampleMapping sampleConvert
     ⟨"a.xlsx", "application/vnd.ms-excel", 100⟩ "boom"
     (by decide) (by decide),
   (parseExcel_error_responses.2.2.2.2 sampleMapping sampleConvert
     ⟨"a.xlsx", "application/vnd.ms-excel", 100⟩ (by decide) (by decide)).1,
   (parseExcel_error_responses.2.2.2.2 sampleMapping sampleConvert
     ⟨"a.xlsx", "application/vnd.ms-excel", 100⟩ (by decide) (by decide)).2⟩

/-- C8, counterexample to the claim as stated: a request rejected for
invalid file type (status 400) returns without any `fs.unlinkSync` — the
early returns precede the `tempFilePath = file.filepath` assignment and
never reach the cleanup, so the temporary upload file is not deleted. -/
theorem parseExcel_invalid_type_leaves_temp_file :
    (parseExcelHandler sampleMapping sampleConvert
      (some ⟨"a.txt", "text/plain", 100⟩)
      (ParseResult.sheet ["税点"] [])).status = 400 ∧
    (parseExcelHandler sampleMapping sampleConvert
      (some ⟨"a.txt", "text/plain", 100⟩)
      (ParseResult.sheet ["税点"] [])).tempFileDeleted = false := by
  decide

/-- C8 (amended): the temporary upload file is deleted on the success
path and on the internal-error (catch) path, but **not** when the request
is rejected early — missing file, invalid file type, oversized file, or a
missing/empty sheet — since those returns bypass every `fs.unlinkSync`. -/
theorem parseExcel_cleanup :
    (∀ (fm : String → Option String) (cv : JSVal → String → JSVal)
       (f : UploadedFile) (hs : List String) (rows : List (List JSVal)),
      isValidExcel f = true → f.size ≤ maxSize →
      (parseExcelHandler fm cv (some f)
        (ParseResult.sheet hs rows)).tempFileDeleted = true) ∧
    (∀ (fm : String → Option String) (cv : JSVal → String → JSVal)
       (f : UploadedFile) (msg : String),
      isValidExcel f = true → f.size ≤ maxSize →
      (parseExcelHandler fm cv (some f)
        (ParseResult.throwsError msg)).tempFileDeleted = true) ∧
    (∀ (fm : String → Option String) (cv : JSVal → String → JSVal)
       (f : UploadedFile) (parsed : ParseResult), isValidExcel f = false →
      (parseExcelHandler fm cv (some f) parsed).tempFileDeleted = false) ∧
    (∀ (fm : String → Option String) (cv : JSVal → String → JSVal)
       (f : UploadedFile) (parsed : ParseResult), isValidExcel f = true →
      f.size > maxSize →
      (parseExcelHandler fm cv (some f) parsed).tempFileDeleted = false) ∧
    (∀ (fm : String → Option String) (cv : JSVal → String → JSVal)
       (f : UploadedFile), isValidExcel f = true → f.size ≤ maxSize →
      (parseExcelHandler fm cv (some f)
        ParseResult.noSheet).tempFileDeleted = false ∧
      (parseExcelHandler fm cv (some f)
        ParseResult.emptySheet).tempFileDeleted = false) := by
  refine ⟨?_, ?_, ?_, ?_, ?_⟩
  · intro fm cv f hs rows hv hsz
    have hns : ¬ f.size > maxSize := not_lt.mpr hsz
    simp [parseExcelHandler, hv, hns]
  · intro fm cv f msg hv hsz
    have hns : ¬ f.size > maxSize := not_lt.mpr hsz
    simp [parseExcelHandler, hv, hns]
  · intro fm cv f parsed hv
    simp [parseExcelHandler, hv]
  · intro fm cv f parsed hv hsz
    simp [parseExcelHandler, hv, hsz]
  · intro fm cv f hv hsz
    have hns : ¬ f.size > maxSize := not_lt.mpr hsz
    exact ⟨by simp [parseExcelHandler, hv, hns], by simp [parseExcelHandler, hv, hns]⟩

/-- C8, witness: each cleanup branch exercised at a concrete request —
deleted on the success and the exception path, not deleted for the
invalid-type, oversized and empty-sheet rejections. -/
theorem parseExcel_cleanup_witness :
    isValidExcel ⟨"a.xlsx", "application/vnd.ms-excel", 100⟩ = true ∧
    (⟨"a.xlsx", "application/vnd.ms-excel", 100⟩ : UploadedFile).size ≤
      maxSize ∧
    isValidExcel ⟨"a.txt", "text/plain", 100⟩ = false ∧
    (⟨"a.xlsx", "application/vnd.ms-excel", 10485761⟩ : UploadedFile).size >
      maxSize ∧
    (parseExcelHandler sampleMapping sampleConvert
      (some ⟨"a.xlsx", "application/vnd.ms-excel", 100⟩)
      (ParseResult.sheet ["税点"] [[JSVal.vNum 1]])).tempFileDeleted = true ∧
    (parseExcelHandler sampleMapping sampleConvert
      (some ⟨"a.xlsx", "application/vnd.ms-excel", 100⟩)
      (ParseResult.throwsError "boom")).tempFileDeleted = true ∧
    (parseExcelHandler sampleMapping sampleConvert
      (some ⟨"a.txt", "text/plain", 100⟩)
      (ParseResult.sheet ["税点"] [[JSVal.vNum 1]])).tempFileDeleted = false ∧
    (parseExcelHandler sampleMapping sampleConvert
      (some ⟨"a.xlsx", "application/vnd.ms-excel", 10485761⟩)
      (ParseResult.sheet ["税点"] [[JSVal.vNum 1]])).tempFileDeleted = false ∧
    (parseExcelHandler sampleMapping sampleConvert
      (some ⟨"a.xlsx", "application/vnd.ms-excel", 100⟩)
      ParseResult.emptySheet).tempFileDeleted = false :=
  ⟨by decide, by decide, by decide, by decide,
   parseExcel_cleanup.1 sampleMapping sampleConvert
     ⟨"a.xlsx", "application/vnd.ms-excel", 100⟩ ["税点"] [[JSVal.vNum 1]]
     (by decide) (by decide),
   parseExcel_cleanup.2.1 sampleMapping sampleConvert
     ⟨"a.xlsx", "application/vnd.ms-excel", 100⟩ "boom"
     (by decide) (by decide),
   parseExcel_cleanup.2.2.1 sampleMapping sampleConvert
     ⟨"a.txt", "text/plain", 100⟩ (ParseResult.sheet ["税点"] [[JSVal.vNum 1]])
     (by decide),
   parseExcel_cleanup.2.2.2.1 sampleMapping sampleConvert
     ⟨"a.xlsx", "application/vnd.ms-excel", 10485761⟩
     (ParseResult.sheet ["税点"] [[JSVal.vNum 1]]) (by decide) (by decide),
   (parseExcel_cleanup.2.2.2.2 sampleMapping sampleConvert
     ⟨"a.xlsx", "application/vnd.ms-excel", 100⟩ (by decide) (by decide)).2⟩
